import Mathlib

/-!
Verification of the `vaults` key-value store (src/vaults.py) against its
specification.  The Python module is shallowly embedded: Python values that can
flow through the codec are the inductive `PyVal`; serialized byte strings are
`Blob` (bytes are modelled up to the byte-equality classes the two codecs
induce); the SQLite table `dict (key BLOB PRIMARY KEY, value BLOB)` is an
association list of blobs kept in row order.  Every operation of the `Vault`
class is translated line by line; the doc comment of each definition names the
source lines it embeds.
-/

namespace Vaults

mutual
/-- Python values supported by the codec of vaults.py.  Scalars carry their
payload (floats carry their 64-bit pattern opaquely: both codecs preserve it
exactly and the store never computes with it).  `obj objId state` models a
custom object that msgpack cannot represent: `objId` is its identity (Python
default equality compares identity) and `state` is the picklable state, so two
objects with equal `state` but different `objId` are distinct Python values
with identical pickle bytes.  Ordered sequences, tuples and mappings are the
mutual list types. -/
inductive PyVal : Type where
  | none
  | bool (b : Bool)
  | int (n : Int)
  | float (bits : Nat)
  | str (s : String)
  | bytes (bs : List Nat)
  | list (xs : PyList)
  | tuple (xs : PyList)
  | dict (es : PyDict)
  | obj (objId : Nat) (state : Nat)
inductive PyList : Type where
  | nil
  | cons (x : PyVal) (xs : PyList)
inductive PyDict : Type where
  | nil
  | cons (k : PyVal) (v : PyVal) (es : PyDict)
end

deriving instance DecidableEq for PyVal, PyList, PyDict
deriving instance Repr for PyVal, PyList, PyDict

mutual
/-- Whether `msgpack.packb(obj, use_bin_type=True)` succeeds
(vaults.py line 70): every scalar, byte string, ordered sequence and mapping
built from packable parts packs; custom objects do not and fall back to
pickle.  Integer values are modelled as packable regardless of magnitude; the
byte-level range limits of the msgpack wire format are below the granularity
of this model. -/
def msgpackable : PyVal → Bool
  | .list xs => msgpackableL xs
  | .tuple xs => msgpackableL xs
  | .dict es => msgpackableD es
  | .obj _ _ => false
  | _ => true
def msgpackableL : PyList → Bool
  | .nil => true
  | .cons x xs => msgpackable x && msgpackableL xs
def msgpackableD : PyDict → Bool
  | .nil => true
  | .cons k v es => msgpackable k && msgpackable v && msgpackableD es
end

mutual
/-- The byte-level image of `msgpack.packb(v)`: msgpack has no tuple type and
packs tuples as arrays, so two packable values have equal msgpack bytes
exactly when their `msgNorm` images are equal — tuples at every depth
(mapping keys included) collapse into lists in the packed bytes.  Whether
those bytes can be decoded again is a separate question: `unpackb` raises on
any map with an array key, which `decodable` captures; on decodable bytes the
arrays come back as lists, i.e. a successful decode yields the `msgNorm`
image. -/
def msgNorm : PyVal → PyVal
  | .list xs => .list (msgNormL xs)
  | .tuple xs => .list (msgNormL xs)
  | .dict es => .dict (msgNormD es)
  | v => v
def msgNormL : PyList → PyList
  | .nil => .nil
  | .cons x xs => .cons (msgNorm x) (msgNormL xs)
def msgNormD : PyDict → PyDict
  | .nil => .nil
  | .cons k v es => .cons (msgNorm k) (msgNorm v) (msgNormD es)
end

mutual
/-- The byte-equality class of `pickle.dumps(v)`: pickle preserves every
constructor (tuples stay tuples) but serializes a custom object by its class
and state, not its identity, so objects differing only in `objId` have equal
pickle bytes; `pickleNorm` zeroes the identity to capture exactly that. -/
def pickleNorm : PyVal → PyVal
  | .list xs => .list (pickleNormL xs)
  | .tuple xs => .tuple (pickleNormL xs)
  | .dict es => .dict (pickleNormD es)
  | .obj _ state => .obj 0 state
  | v => v
def pickleNormL : PyList → PyList
  | .nil => .nil
  | .cons x xs => .cons (pickleNorm x) (pickleNormL xs)
def pickleNormD : PyDict → PyDict
  | .nil => .nil
  | .cons k v es => .cons (pickleNorm k) (pickleNorm v) (pickleNormD es)
end

/-- A serialized byte string, vaults.py lines 75-79: a one-byte marker then
codec-specific bytes.  `msg v` stands for `b'M' + msgpack.packb(...)` whose
unpacked form is `v`; `pk v` stands for `b'P' + pickle.dumps(...)` whose
pickle-equality class is `v`.  Blob equality is byte equality. -/
inductive Blob : Type where
  | msg (v : PyVal)
  | pk (v : PyVal)
deriving DecidableEq, Repr

/-- Embeds `_serialize` (vaults.py lines 75-79): try msgpack first, tag with
`M`; otherwise fall back to pickle, tag with `P`. -/
def _serialize (obj : PyVal) : Blob :=
  if msgpackable obj then Blob.msg (msgNorm obj) else Blob.pk (pickleNorm obj)

/-- Embeds the final normalization of `_deserialize` (vaults.py lines 95-97):
`if isinstance(result, tuple): return list(result)`. -/
def topTupleNorm : PyVal → PyVal
  | .tuple xs => .list xs
  | v => v

/-- The value a SUCCESSFUL decode of the blob yields (see `_deserialize` for
when decoding raises instead): decode according to the marker byte, then
normalize a top-level tuple to a list (vaults.py lines 82-97). -/
def decodeImage : Blob → PyVal
  | .msg v => topTupleNorm v
  | .pk v => topTupleNorm v

mutual
/-- Whether a Python value is hashable, hence usable as a `dict` key: lists,
dicts, and tuples with unhashable members are not; every other modelled value
(including custom objects, hashed by identity) is. -/
def hashable : PyVal → Bool
  | .list _ => false
  | .dict _ => false
  | .tuple xs => hashableL xs
  | _ => true
def hashableL : PyList → Bool
  | .nil => true
  | .cons x xs => hashable x && hashableL xs
end

/-- The exceptions the store operations can raise: `typeError` for a decode
failure (msgpack.unpackb on a map with an array key — ValueError under
strict_map_key or TypeError unhashable-list in every released version — or
rebuilding a dict from an unhashable decoded key), `keyError` for the strict
missing-key paths, `vaultError` for popitem on an empty store. -/
inductive PyErr : Type where
  | typeError
  | keyError (key : PyVal)
  | vaultError (msg : String)
deriving DecidableEq, Repr

mutual
/-- Whether every mapping occurring anywhere in the decoded image has only
hashable keys.  Decoding bytes whose image contains a map with an unhashable
key (a list — produced by any tuple or list key of a stored mapping on the
msgpack path) raises in every msgpack version, and pickle.loads likewise
raises while rebuilding such a dict; maps whose keys are hashable (including
tuple keys, which pickle preserves) rebuild fine. -/
def mapKeysHashable : PyVal → Bool
  | .list xs => mapKeysHashableL xs
  | .tuple xs => mapKeysHashableL xs
  | .dict es => mapKeysHashableD es
  | _ => true
def mapKeysHashableL : PyList → Bool
  | .nil => true
  | .cons x xs => mapKeysHashable x && mapKeysHashableL xs
def mapKeysHashableD : PyDict → Bool
  | .nil => true
  | .cons k v es => hashable k && mapKeysHashable v && mapKeysHashableD es
end

/-- Whether decoding the blob succeeds: the decoded image must contain no
mapping with an unhashable key. -/
def decodable : Blob → Bool
  | .msg v => mapKeysHashable v
  | .pk v => mapKeysHashable v

/-- Embeds `_deserialize` (vaults.py lines 82-97) as seen by the caller:
returns the decoded value, or raises the decode failure (`typeError`) when
the bytes hold a mapping with an unhashable key, which the code itself can
write (e.g. `put(k, {(1,): 'a'})` stores msgpack bytes of a map with an array
key).  The empty-bytes and unknown-marker branches concern bytes no store
operation ever writes and are outside `Blob`. -/
def _deserialize (b : Blob) : Except PyErr PyVal :=
  if decodable b then Except.ok (decodeImage b) else Except.error PyErr.typeError

mutual
/-- Values built without custom objects: the shapes the specification lists as
supported (integers, floats, strings, booleans, None, nested ordered
sequences, nested mappings, byte sequences). -/
def objFree : PyVal → Bool
  | .list xs => objFreeL xs
  | .tuple xs => objFreeL xs
  | .dict es => objFreeD es
  | .obj _ _ => false
  | _ => true
def objFreeL : PyList → Bool
  | .nil => true
  | .cons x xs => objFree x && objFreeL xs
def objFreeD : PyDict → Bool
  | .nil => true
  | .cons k v es => objFree k && objFree v && objFreeD es
end

mutual
/-- Values containing no tuple at any depth: on these the codec is lossless. -/
def tupleFree : PyVal → Bool
  | .list xs => tupleFreeL xs
  | .tuple _ => false
  | .dict es => tupleFreeD es
  | _ => true
def tupleFreeL : PyList → Bool
  | .nil => true
  | .cons x xs => tupleFree x && tupleFreeL xs
def tupleFreeD : PyDict → Bool
  | .nil => true
  | .cons k v es => tupleFree k && tupleFree v && tupleFreeD es
end

/-- Whether the top-level constructor is a tuple. -/
def isTuple : PyVal → Bool
  | .tuple _ => true
  | _ => false

/-- The SQLite table `dict (key BLOB PRIMARY KEY, value BLOB)` of one vault:
rows in table order.  The primary key makes row keys unique; operations built
from an empty store preserve that invariant, and theorems that need it take it
as the hypothesis `nodupKeys`. -/
abbrev Store := List (Blob × Blob)

/-- Embeds `SELECT value FROM dict WHERE key = ?` followed by `fetchone()`. -/
def dbLookup (s : Store) (sk : Blob) : Option Blob :=
  (s.find? (fun r => r.1 == sk)).map (fun r => r.2)

/-- Embeds `DELETE FROM dict WHERE key = ?`. -/
def dbDelete (s : Store) (sk : Blob) : Store :=
  s.filter (fun r => !(r.1 == sk))

/-- Embeds `INSERT OR REPLACE INTO dict (key, value) VALUES (?, ?)`: any row
with the same key is replaced; the fresh row takes a fresh rowid, hence sits
at the end of table order. -/
def upsert (s : Store) (sk sv : Blob) : Store :=
  dbDelete s sk ++ [(sk, sv)]

/-- Embeds `Vault._put` (vaults.py lines 180-190): serialize key and value,
then upsert. -/
def _put (s : Store) (key value : PyVal) : Store :=
  upsert s (_serialize key) (_serialize value)

/-- Embeds `Vault.put` (lines 192-194), which only logs around `_put`. -/
def put (s : Store) (key value : PyVal) : Store :=
  _put s key value

/-- Embeds `Vault._get` (lines 196-201) as seen by the caller: the Python
expression `_deserialize(row[0]) if row else None` returns the Python value
None both when the key is absent and when the stored value decodes to None,
and propagates the decode failure when the stored value does not decode. -/
def _get (s : Store) (key : PyVal) : Except PyErr PyVal :=
  match dbLookup s (_serialize key) with
  | some sv => _deserialize sv
  | Option.none => Except.ok PyVal.none

/-- Embeds `Vault.get` (lines 203-210): keep the value when it `is not None`,
otherwise return the default; a decode failure propagates. -/
def get (s : Store) (key default : PyVal) : Except PyErr PyVal :=
  match _get s key with
  | Except.error e => Except.error e
  | Except.ok value => Except.ok (if value ≠ PyVal.none then value else default)

/-- Embeds `Vault._pop` / `Vault.pop` (lines 212-227): returns the removed
value (None when absent) and the resulting table; a decode failure is raised
before the DELETE runs, leaving the table unchanged. -/
def pop (s : Store) (key : PyVal) : Except PyErr (PyVal × Store) :=
  let sk := _serialize key
  match dbLookup s sk with
  | some sv =>
      match _deserialize sv with
      | Except.error e => Except.error e
      | Except.ok value => Except.ok (value, dbDelete s sk)
  | Option.none => Except.ok (PyVal.none, s)

/-- Embeds `Vault.__getitem__` (lines 413-417): raise `KeyError(key)` when
`_get` produced None; a decode failure propagates. -/
def getitem (s : Store) (key : PyVal) : Except PyErr PyVal :=
  match _get s key with
  | Except.error e => Except.error e
  | Except.ok value =>
      if value = PyVal.none then Except.error (PyErr.keyError key) else Except.ok value

/-- Embeds `Vault.__delitem__` (lines 422-428): `SELECT 1` probe, then raise
`KeyError(key)` when no row matched, else delete the row; no decode occurs. -/
def delitem (s : Store) (key : PyVal) : Except PyErr Store :=
  let sk := _serialize key
  if (dbLookup s sk).isSome then Except.ok (dbDelete s sk)
  else Except.error (PyErr.keyError key)

/-- Embeds `Vault.__contains__` (lines 430-433). -/
def contains (s : Store) (key : PyVal) : Bool :=
  (dbLookup s (_serialize key)).isSome

/-- Embeds `Vault.clear` (lines 394-396), `DELETE FROM dict`. -/
def clearOp (_s : Store) : Store := []

/-- Embeds `Vault.values` (lines 453-456): decode the value column in table
order; the first decode failure raises. -/
def valuesOp : Store → Except PyErr (List PyVal)
  | [] => Except.ok []
  | r :: rest =>
      match _deserialize r.2 with
      | Except.error e => Except.error e
      | Except.ok v =>
          match valuesOp rest with
          | Except.error e => Except.error e
          | Except.ok vs => Except.ok (v :: vs)

/-- Embeds `Vault.put_many` (lines 229-266): a dict is its items in insertion
order with pairwise-distinct keys; empty input short-circuits to 0, else one
`executemany` upserts every serialized item in order and the length of the
serialized item list is returned. -/
def put_many (s : Store) (data : List (PyVal × PyVal)) : Nat × Store :=
  if data.isEmpty then (0, s)
  else
    let serialized_items := data.map (fun kv => (_serialize kv.1, _serialize kv.2))
    (serialized_items.length,
      serialized_items.foldl (fun st it => upsert st it.1 it.2) s)

/-- Embeds `Vault.has_keys` (lines 338-370): empty key list short-circuits to
true; otherwise `SELECT COUNT(*) ... WHERE key IN (...)` is compared with the
number of requested keys. -/
def has_keys (s : Store) (keyList : List PyVal) : Bool :=
  if keyList.isEmpty then true
  else
    let serialized_keys := keyList.map _serialize
    (s.filter (fun r => decide (r.1 ∈ serialized_keys))).length == keyList.length

/-- Result of a successful `Vault.__init__`: whether the backing file and the
table were created during the call. -/
structure OpenResult where
  fileCreated : Bool
  tableCreated : Bool
deriving DecidableEq, Repr

/-- Embeds `Vault.__init__` (lines 125-155) and `_create_table` (157-163)
over the two inputs that decide its control flow: whether the `.db` file
exists and the `to_create` flag.  `sqlite3.connect` creates the file when it
is absent; the table is created only on the create-new path; the final `elif`
of the source is unreachable but retained. -/
def vaultInit (pathExists toCreate : Bool) : Except String OpenResult :=
  if pathExists || toCreate then
    if toCreate && !pathExists then Except.ok ⟨!pathExists, true⟩
    else if !pathExists && !toCreate then Except.error "Vault does not exist"
    else Except.ok ⟨!pathExists, false⟩
  else Except.error "Vault does not exist"

/-- One lock flag per SQL statement an operation runs: `true` when the RLock
is held around that statement.  `Vault._execute` (lines 165-172) never touches
the lock, so its statement runs with flag `false`. -/
def executeTrace : List Bool := [false]

/-- `Vault._execute_with_lock` (lines 174-178) holds the lock around its one
statement exactly when the vault was constructed thread-safe. -/
def executeWithLockTrace (threadSafe : Bool) : List Bool := [threadSafe]

/-- `Vault._put` (lines 180-190) issues its single statement through
`_execute_with_lock`. -/
def putTrace (threadSafe : Bool) : List Bool := executeWithLockTrace threadSafe

/-- `Vault._get` (lines 196-201) issues its SELECT through plain `_execute`,
ignoring the lock whatever the `threadSafe` flag says. -/
def getTrace (_threadSafe : Bool) : List Bool := executeTrace

/-- `Vault._pop` (lines 212-223) issues a SELECT and, when the key is present,
a DELETE, both through plain `_execute`. -/
def popTrace (_threadSafe : Bool) (keyPresent : Bool) : List Bool :=
  executeTrace ++ (if keyPresent then executeTrace else [])

/-- `Vault.put_many` (lines 229-266) wraps its `executemany` in
`with self._lock` when the lock exists. -/
def putManyTrace (threadSafe : Bool) (dataEmpty : Bool) : List Bool :=
  if dataEmpty then [] else [threadSafe]

/-- `Vault.get_many` (lines 268-299) issues its SELECT through plain
`_execute`. -/
def getManyTrace (_threadSafe : Bool) (keysEmpty : Bool) : List Bool :=
  if keysEmpty then [] else executeTrace

/-- `Vault.pop_many` (lines 301-336): a `get_many` then, when keys were
found, a DELETE through plain `_execute`. -/
def popManyTrace (threadSafe : Bool) (keysEmpty foundEmpty : Bool) : List Bool :=
  if keysEmpty then []
  else getManyTrace threadSafe false ++ (if foundEmpty then [] else executeTrace)

/-- `Vault.has_keys` (lines 338-370) issues its COUNT through plain
`_execute`. -/
def hasKeysTrace (_threadSafe : Bool) (keysEmpty : Bool) : List Bool :=
  if keysEmpty then [] else executeTrace

/-- `Vault.popitem` (lines 372-382): SELECT, then DELETE when a row exists,
both through plain `_execute`. -/
def popitemTrace (_threadSafe : Bool) (nonEmpty : Bool) : List Bool :=
  executeTrace ++ (if nonEmpty then executeTrace else [])

/-- `Vault.clear` (lines 394-396) issues its DELETE through plain
`_execute`. -/
def clearTrace (_threadSafe : Bool) : List Bool := executeTrace

/-- `Vault.__getitem__` (lines 413-417) reads through `_get`. -/
def getitemTrace (_threadSafe : Bool) : List Bool := executeTrace

/-- `Vault.__delitem__` (lines 422-428): SELECT probe then DELETE when the
key exists, both through plain `_execute`. -/
def delitemTrace (_threadSafe : Bool) (keyPresent : Bool) : List Bool :=
  executeTrace ++ (if keyPresent then executeTrace else [])

/-- `Vault.__contains__` (lines 430-433) through plain `_execute`. -/
def containsTrace (_threadSafe : Bool) : List Bool := executeTrace

/-- `Vault.__len__` (lines 435-437) through plain `_execute`. -/
def lenTrace (_threadSafe : Bool) : List Bool := executeTrace

/-- `Vault._list_keys` / `keys` / `values` / `items` / `get_all_items`
(lines 398-411, 450-459) each read through plain `_execute`. -/
def keysTrace (_threadSafe : Bool) : List Bool := executeTrace

/-- `Vault.setdefault` (lines 465-472): an unlocked SELECT probe, then a
locked `_put` when the key was absent. -/
def setdefaultTrace (threadSafe : Bool) (keyPresent : Bool) : List Bool :=
  executeTrace ++ (if keyPresent then [] else putTrace threadSafe)

/-- `Vault.update` (lines 461-463): one locked `_put` per item. -/
def updateTrace (threadSafe : Bool) (numItems : Nat) : List Bool :=
  (List.range numItems).map (fun _ => threadSafe)

/- Codec lemmas. -/

mutual
theorem msgNorm_idem : ∀ v, msgNorm (msgNorm v) = msgNorm v
  | .list xs => by simp [msgNorm, msgNormL_idem xs]
  | .tuple xs => by simp [msgNorm, msgNormL_idem xs]
  | .dict es => by simp [msgNorm, msgNormD_idem es]
  | .none | .bool _ | .int _ | .float _ | .str _ | .bytes _ | .obj _ _ => rfl
theorem msgNormL_idem : ∀ xs, msgNormL (msgNormL xs) = msgNormL xs
  | .nil => rfl
  | .cons x xs => by simp [msgNormL, msgNorm_idem x, msgNormL_idem xs]
theorem msgNormD_idem : ∀ es, msgNormD (msgNormD es) = msgNormD es
  | .nil => rfl
  | .cons k v es => by
      simp [msgNormD, msgNorm_idem k, msgNorm_idem v, msgNormD_idem es]
end

mutual
theorem pickleNorm_idem : ∀ v, pickleNorm (pickleNorm v) = pickleNorm v
  | .list xs => by simp [pickleNorm, pickleNormL_idem xs]
  | .tuple xs => by simp [pickleNorm, pickleNormL_idem xs]
  | .dict es => by simp [pickleNorm, pickleNormD_idem es]
  | .obj _ _ => rfl
  | .none | .bool _ | .int _ | .float _ | .str _ | .bytes _ => rfl
theorem pickleNormL_idem : ∀ xs, pickleNormL (pickleNormL xs) = pickleNormL xs
  | .nil => rfl
  | .cons x xs => by simp [pickleNormL, pickleNorm_idem x, pickleNormL_idem xs]
theorem pickleNormD_idem : ∀ es, pickleNormD (pickleNormD es) = pickleNormD es
  | .nil => rfl
  | .cons k v es => by
      simp [pickleNormD, pickleNorm_idem k, pickleNorm_idem v, pickleNormD_idem es]
end

mutual
theorem msgpackable_msgNorm : ∀ v, msgpackable (msgNorm v) = msgpackable v
  | .list xs => by simp [msgNorm, msgpackable, msgpackableL_msgNormL xs]
  | .tuple xs => by simp [msgNorm, msgpackable, msgpackableL_msgNormL xs]
  | .dict es => by simp [msgNorm, msgpackable, msgpackableD_msgNormD es]
  | .none | .bool _ | .int _ | .float _ | .str _ | .bytes _ | .obj _ _ => rfl
theorem msgpackableL_msgNormL : ∀ xs, msgpackableL (msgNormL xs) = msgpackableL xs
  | .nil => rfl
  | .cons x xs => by
      simp [msgNormL, msgpackableL, msgpackable_msgNorm x, msgpackableL_msgNormL xs]
theorem msgpackableD_msgNormD : ∀ es, msgpackableD (msgNormD es) = msgpackableD es
  | .nil => rfl
  | .cons k v es => by
      simp [msgNormD, msgpackableD, msgpackable_msgNorm k, msgpackable_msgNorm v,
        msgpackableD_msgNormD es]
end

mutual
theorem msgpackable_pickleNorm : ∀ v, msgpackable (pickleNorm v) = msgpackable v
  | .list xs => by simp [pickleNorm, msgpackable, msgpackableL_pickleNormL xs]
  | .tuple xs => by simp [pickleNorm, msgpackable, msgpackableL_pickleNormL xs]
  | .dict es => by simp [pickleNorm, msgpackable, msgpackableD_pickleNormD es]
  | .obj _ _ => rfl
  | .none | .bool _ | .int _ | .float _ | .str _ | .bytes _ => rfl
theorem msgpackableL_pickleNormL : ∀ xs, msgpackableL (pickleNormL xs) = msgpackableL xs
  | .nil => rfl
  | .cons x xs => by
      simp [pickleNormL, msgpackableL, msgpackable_pickleNorm x, msgpackableL_pickleNormL xs]
theorem msgpackableD_pickleNormD : ∀ es, msgpackableD (pickleNormD es) = msgpackableD es
  | .nil => rfl
  | .cons k v es => by
      simp [pickleNormD, msgpackableD, msgpackable_pickleNorm k, msgpackable_pickleNorm v,
        msgpackableD_pickleNormD es]
end

theorem isTuple_msgNorm (v : PyVal) : isTuple (msgNorm v) = false := by
  cases v <;> rfl

theorem isTuple_pickleNorm (v : PyVal) : isTuple (pickleNorm v) = isTuple v := by
  cases v <;> rfl

theorem topTupleNorm_of_not_tuple (v : PyVal) (h : isTuple v = false) :
    topTupleNorm v = v := by
  cases v <;> simp_all [isTuple, topTupleNorm]

mutual
theorem msgNorm_of_tupleFree : ∀ v, tupleFree v = true → msgNorm v = v
  | .list xs => by
      intro h
      simp only [tupleFree] at h
      simp [msgNorm, msgNormL_of_tupleFreeL xs h]
  | .tuple _ => by intro h; simp [tupleFree] at h
  | .dict es => by
      intro h
      simp only [tupleFree] at h
      simp [msgNorm, msgNormD_of_tupleFreeD es h]
  | .none | .bool _ | .int _ | .float _ | .str _ | .bytes _ | .obj _ _ => by
      intro _; rfl
theorem msgNormL_of_tupleFreeL : ∀ xs, tupleFreeL xs = true → msgNormL xs = xs
  | .nil => by intro _; rfl
  | .cons x xs => by
      intro h
      simp only [tupleFreeL, Bool.and_eq_true] at h
      simp [msgNormL, msgNorm_of_tupleFree x h.1, msgNormL_of_tupleFreeL xs h.2]
theorem msgNormD_of_tupleFreeD : ∀ es, tupleFreeD es = true → msgNormD es = es
  | .nil => by intro _; rfl
  | .cons k v es => by
      intro h
      simp only [tupleFreeD, Bool.and_eq_true] at h
      simp [msgNormD, msgNorm_of_tupleFree k h.1.1, msgNorm_of_tupleFree v h.1.2,
        msgNormD_of_tupleFreeD es h.2]
end

mutual
theorem msgpackable_of_objFree : ∀ v, objFree v = true → msgpackable v = true
  | .list xs => by
      intro h; simp only [objFree] at h
      simp [msgpackable, msgpackableL_of_objFreeL xs h]
  | .tuple xs => by
      intro h; simp only [objFree] at h
      simp [msgpackable, msgpackableL_of_objFreeL xs h]
  | .dict es => by
      intro h; simp only [objFree] at h
      simp [msgpackable, msgpackableD_of_objFreeD es h]
  | .obj _ _ => by intro h; simp [objFree] at h
  | .none | .bool _ | .int _ | .float _ | .str _ | .bytes _ => by intro _; rfl
theorem msgpackableL_of_objFreeL : ∀ xs, objFreeL xs = true → msgpackableL xs = true
  | .nil => by intro _; rfl
  | .cons x xs => by
      intro h
      simp only [objFreeL, Bool.and_eq_true] at h
      simp [msgpackableL, msgpackable_of_objFree x h.1, msgpackableL_of_objFreeL xs h.2]
theorem msgpackableD_of_objFreeD : ∀ es, objFreeD es = true → msgpackableD es = true
  | .nil => by intro _; rfl
  | .cons k v es => by
      intro h
      simp only [objFreeD, Bool.and_eq_true] at h
      simp [msgpackableD, msgpackable_of_objFree k h.1.1, msgpackable_of_objFree v h.1.2,
        msgpackableD_of_objFreeD es h.2]
end

/-- A successful decode of what the codec wrote for a msgpack-representable
value yields its sequence-normalized form. -/
theorem decodeImage_serialize_of_msgpackable (v : PyVal) (h : msgpackable v = true) :
    decodeImage (_serialize v) = msgNorm v := by
  simp [_serialize, h, decodeImage, topTupleNorm_of_not_tuple _ (isTuple_msgNorm v)]

/-- A successful decode of what the codec wrote for a supported
(custom-object-free) value yields its sequence-normalized form. -/
theorem decodeImage_serialize_of_objFree (v : PyVal) (h : objFree v = true) :
    decodeImage (_serialize v) = msgNorm v :=
  decodeImage_serialize_of_msgpackable v (msgpackable_of_objFree v h)

theorem dbLookup_eq_none_iff (s : Store) (sk : Blob) :
    dbLookup s sk = Option.none ↔ ∀ r ∈ s, r.1 ≠ sk := by
  rw [dbLookup, Option.map_eq_none', List.find?_eq_none]
  simp

theorem dbDelete_of_not_mem (s : Store) (sk : Blob) (h : ∀ r ∈ s, r.1 ≠ sk) :
    dbDelete s sk = s := by
  rw [dbDelete, List.filter_eq_self]
  intro r hr
  simpa using h r hr

theorem _get_of_lookup_none (s : Store) (k : PyVal)
    (h : dbLookup s (_serialize k) = Option.none) :
    _get s k = Except.ok PyVal.none := by
  rw [_get, h]

/- Claim theorems. -/

/-- C1 counterexample: store the value None under the key "k"; then
`get("k", "d")` returns the default "d" (not the stored None) and index-style
get raises `KeyError`, so the stored no-value sentinel is NOT distinguishable
from an absent key through these reads, contrary to the claim. -/
theorem C1_counterexample :
    get (put [] (PyVal.str "k") PyVal.none) (PyVal.str "k") (PyVal.str "d")
      = Except.ok (PyVal.str "d")
    ∧ getitem (put [] (PyVal.str "k") PyVal.none) (PyVal.str "k")
      = Except.error (PyErr.keyError (PyVal.str "k")) := by
  constructor <;> rfl

/-- C1 as amended: when the store holds an entry for `k` whose stored value is
the encoded None, `get(k, d)` returns the default `d` and index-style get
raises the missing-key error, exactly as for an absent key; the entry stays
visible only to key-probing reads such as `contains`. -/
theorem C1_amended (s : Store) (k d : PyVal)
    (h : dbLookup s (_serialize k) = some (_serialize PyVal.none)) :
    get s k d = Except.ok d
    ∧ getitem s k = Except.error (PyErr.keyError k)
    ∧ contains s k = true := by
  have hg : _get s k = Except.ok PyVal.none := by
    rw [_get, h]
    rfl
  refine ⟨?_, ?_, ?_⟩
  · rw [get, hg]
    simp
  · rw [getitem, hg]
    simp
  · rw [contains, h]
    rfl

/-- Witness for C1_amended at a concrete store. -/
theorem C1_amended_witness :
    get (put [] (PyVal.str "k") PyVal.none) (PyVal.str "k") (PyVal.str "d")
      = Except.ok (PyVal.str "d")
    ∧ getitem (put [] (PyVal.str "k") PyVal.none) (PyVal.str "k")
      = Except.error (PyErr.keyError (PyVal.str "k"))
    ∧ contains (put [] (PyVal.str "k") PyVal.none) (PyVal.str "k") = true :=
  C1_amended (put [] (PyVal.str "k") PyVal.none) (PyVal.str "k") (PyVal.str "d") rfl

/-- C2: the code violates the every-operation-locks contract.  Evaluating the
lock flag of every SQL statement each operation runs on a vault constructed
with thread_safe=True: `put` and a non-empty `put_many` hold the lock, but
`pop` on a present key, `get`, `popitem`, `get_many`, `pop_many`, `has_keys`,
`clear`, index-style get and delete, `contains`, `len`, `keys`, and the probe
of `setdefault` all execute statements with the lock not held. -/
theorem C2_lock_not_acquired :
    putTrace true = [true]
    ∧ putManyTrace true false = [true]
    ∧ popTrace true true = [false, false]
    ∧ getTrace true = [false]
    ∧ popitemTrace true true = [false, false]
    ∧ getManyTrace true false = [false]
    ∧ popManyTrace true false false = [false, false]
    ∧ hasKeysTrace true false = [false]
    ∧ clearTrace true = [false]
    ∧ getitemTrace true = [false]
    ∧ delitemTrace true true = [false, false]
    ∧ containsTrace true = [false]
    ∧ lenTrace true = [false]
    ∧ keysTrace true = [false]
    ∧ setdefaultTrace true true = [false] := by
  decide

/-- C3: missing-key laws.  For a key whose encoded form is absent from the
table: `get` returns the supplied default (None when none is supplied), `pop`
returns None and leaves the store unchanged, and index-style get and delete
raise the strict missing-key error carrying the key. -/
theorem C3_missing_key_laws (s : Store) (k d : PyVal)
    (h : dbLookup s (_serialize k) = Option.none) :
    get s k d = Except.ok d
    ∧ get s k PyVal.none = Except.ok PyVal.none
    ∧ pop s k = Except.ok (PyVal.none, s)
    ∧ getitem s k = Except.error (PyErr.keyError k)
    ∧ delitem s k = Except.error (PyErr.keyError k) := by
  have hg : _get s k = Except.ok PyVal.none := _get_of_lookup_none s k h
  refine ⟨?_, ?_, ?_, ?_, ?_⟩
  · rw [get, hg]; simp
  · rw [get, hg]; simp
  · rw [pop, h]
  · rw [getitem, hg]; simp
  · rw [delitem, h]; rfl

/-- Witness for C3_missing_key_laws on the empty store. -/
theorem C3_witness :
    get [] (PyVal.str "a") (PyVal.int 7) = Except.ok (PyVal.int 7)
    ∧ get [] (PyVal.str "a") PyVal.none = Except.ok PyVal.none
    ∧ pop [] (PyVal.str "a") = Except.ok (PyVal.none, [])
    ∧ getitem [] (PyVal.str "a") = Except.error (PyErr.keyError (PyVal.str "a"))
    ∧ delitem [] (PyVal.str "a") = Except.error (PyErr.keyError (PyVal.str "a")) :=
  C3_missing_key_laws [] (PyVal.str "a") (PyVal.int 7) rfl

/-- C7: `has_keys(keys)` is true exactly when the number of stored rows whose
encoded key occurs among the encoded requested keys equals the number of
requested keys, and the empty request returns true. -/
theorem C7_has_keys (s : Store) (ks : List PyVal) :
    (has_keys s ks = true
      ↔ s.countP (fun r => decide (r.1 ∈ ks.map _serialize)) = ks.length)
    ∧ has_keys s [] = true := by
  refine ⟨?_, rfl⟩
  by_cases h : ks.isEmpty
  · rw [List.isEmpty_iff] at h
    subst h
    simp [has_keys]
  · rw [has_keys, if_neg (by simp [h]), List.countP_eq_length_filter]
    simp

/-- C8: opening a vault by name.  If the backing file exists the store is
opened as is (no file or table creation) whatever the create flag; if it is
absent and creation is disabled the constructor fails with the not-found
error; if it is absent and creation is enabled the file and the table are
created and a handle results. -/
theorem C8_open :
    (∀ toCreate, vaultInit true toCreate = Except.ok ⟨false, false⟩)
    ∧ vaultInit false false = Except.error "Vault does not exist"
    ∧ vaultInit false true = Except.ok ⟨true, true⟩ := by
  refine ⟨fun toCreate => ?_, rfl, rfl⟩
  cases toCreate <;> rfl

/-- C10: `put_many` on a non-empty mapping returns the size of the input
mapping; every row it adds beyond the previous table contents carries one of
the input's encoded keys, and when two distinct input keys share one encoded
form the returned count strictly exceeds the number of distinct encoded keys,
which bounds the rows added or changed (each executemany upsert touches the
row of its encoded key). -/
theorem C10_put_many (s : Store) (data : List (PyVal × PyVal)) (hne : data ≠ []) :
    (put_many s data).1 = data.length
    ∧ (∀ r ∈ (put_many s data).2,
        r ∈ s ∨ r.1 ∈ data.map (fun kv => _serialize kv.1))
    ∧ (∀ k1 k2, k1 ∈ data.map Prod.fst → k2 ∈ data.map Prod.fst → k1 ≠ k2 →
        _serialize k1 = _serialize k2 →
        ((data.map (fun kv => _serialize kv.1)).dedup).length < data.length) := by
  have hnemp : data.isEmpty = false := by
    cases data with
    | nil => exact absurd rfl hne
    | cons a l => rfl
  refine ⟨?_, ?_, ?_⟩
  · rw [put_many, if_neg (by simp [hnemp])]
    simp
  · rw [put_many, if_neg (by simp [hnemp])]
    simp only
    intro r hr
    have main : ∀ (items : List (Blob × Blob)) (t : Store) (r : Blob × Blob),
        r ∈ items.foldl (fun st it => upsert st it.1 it.2) t →
        r ∈ t ∨ r.1 ∈ items.map Prod.fst := by
      intro items
      induction items with
      | nil => intro t r hr; exact Or.inl hr
      | cons it rest ih =>
          intro t r hr
          rw [List.foldl_cons] at hr
          rcases ih (upsert t it.1 it.2) r hr with hmem | hkey
          · rw [upsert, List.mem_append] at hmem
            rcases hmem with hdel | hnewrow
            · rw [dbDelete, List.mem_filter] at hdel
              exact Or.inl hdel.1
            · simp only [List.mem_singleton] at hnewrow
              subst hnewrow
              exact Or.inr (by simp)
          · exact Or.inr (by simp [hkey])
    rcases main (data.map (fun kv => (_serialize kv.1, _serialize kv.2))) s r hr with h | h
    · exact Or.inl h
    · right
      rw [List.map_map] at h
      simpa using h
  · intro k1 k2 h1 h2 hne12 hser
    set l := data.map (fun kv => _serialize kv.1) with hl
    have hlen : l.length = data.length := by simp [hl]
    have hnd : ¬ l.Nodup := by
      intro hnodup
      have : k1 = k2 := by
        have hinj := List.inj_on_of_nodup_map (f := fun k => _serialize k)
          (l := data.map Prod.fst) (by simpa [hl, List.map_map, Function.comp] using hnodup)
        exact hinj h1 h2 hser
      exact hne12 this
    have hle : l.dedup.length ≤ l.length := (List.dedup_sublist l).length_le
    rcases lt_or_eq_of_le hle with hlt | heq
    · exact hlen ▸ hlt
    · exfalso
      have : l.dedup = l := (List.dedup_sublist l).eq_of_length heq
      exact hnd (this ▸ List.nodup_dedup l)

/-- Witness for C10_put_many: two distinct custom objects with identical
pickled state form a two-entry mapping whose encoded keys collide; put_many
reports 2 while only one distinct encoded key (one row) is touched. -/
theorem C10_witness :
    (put_many [] [(PyVal.obj 0 7, PyVal.int 1), (PyVal.obj 1 7, PyVal.int 2)]).1 = 2
    ∧ (([(PyVal.obj 0 7, PyVal.int 1), (PyVal.obj 1 7, PyVal.int 2)].map
        (fun kv => _serialize kv.1)).dedup).length < 2 := by
  have h := C10_put_many [] [(PyVal.obj 0 7, PyVal.int 1), (PyVal.obj 1 7, PyVal.int 2)]
    (by decide)
  exact ⟨h.1, h.2.2 (PyVal.obj 0 7) (PyVal.obj 1 7) (by decide) (by decide)
    (by decide) (by decide)⟩

end Vaults
